import Mathlib

/-!
Verification of `src/architecture/max-msp/rnbo.py` (Faust RNBO/Max-MSP
architecture script).

The script has two core components:
  * `extract_items_info` — recursively walks the JSON manifest's "ui"
    element tree and flattens it to a list of control descriptors;
  * `create_rnbo_patch` — builds the Max patch graph (top-level patcher
    with an ezdac~ box and an rnbo~ box; inside the rnbo~ subpatcher a
    codebox~, input/output stubs, and a display+setter pair per control)
    through the py2max object model.

We embed both as pure Lean functions.  JSON-decoded Python values are
modelled by the `Json` inductive below; Python operations that can raise
(attribute errors on non-dicts, iterating a non-list) are modelled with
`Except String`.  Python dict reads (`d.get(k, default)`, `k in d`,
`d[k]`) are total on dicts and are modelled by association-list lookup.
-/

/-- JSON-decoded Python values.  Numbers are modelled as rationals
(JSON numerals are decimal).  Objects are association lists in key
order; lookup finds the first binding. -/
inductive Json where
  | null : Json
  | bool (b : Bool) : Json
  | num (q : ℚ) : Json
  | str (s : String) : Json
  | arr (items : List Json) : Json
  | obj (fields : List (String × Json)) : Json
deriving Repr

/-- A control descriptor: the dict appended to `info_list` by
`extract_from_ui` (rnbo.py lines 55-64 and 71-80).  Its keys are always
exactly shortname/type/init/min/max/step, so we use a structure. -/
structure ItemInfo where
  shortname : Json
  type : Json
  init : Json
  min : Json
  max : Json
  step : Json
deriving Repr

/-- The Python test `item_type in ["button", "checkbox"]` (rnbo.py
lines 54 and 139): equality of the item's "type" value against the two
strings. -/
def isBoolKind : Json → Bool
  | .str "button" => true
  | .str "checkbox" => true
  | _ => false

/-- The descriptors contributed by a single UI item (a JSON object with
fields `fs`) for itself, before any recursion into its "items"
(rnbo.py lines 50-80): a button/checkbox gets the fixed range, an item
with "min", "max" and "step" keys is a range control copying them, any
other item contributes nothing. -/
def ownInfo (fs : List (String × Json)) : List ItemInfo :=
  let shortname := (fs.lookup "shortname").getD (.str "")
  let item_type := (fs.lookup "type").getD (.str "")
  if isBoolKind item_type then
    [{ shortname := shortname, type := item_type,
       init := .num 0, min := .num 0, max := .num 1, step := .num 1 }]
  else
    match fs.lookup "min", fs.lookup "max", fs.lookup "step" with
    | some min_value, some max_value, some step_value =>
      [{ shortname := shortname, type := item_type,
         init := (fs.lookup "init").getD (.num 0),
         min := min_value, max := max_value, step := step_value }]
    | _, _, _ => []

/-- `sizeOf` of a successful association-list lookup is below the list's. -/
theorem sizeOf_lookup_lt {fs : List (String × Json)} {k : String} {v : Json}
    (h : fs.lookup k = some v) : sizeOf v < sizeOf fs := by
  induction fs with
  | nil => simp [List.lookup] at h
  | cons p rest ih =>
    obtain ⟨a, b⟩ := p
    by_cases hk : k == a
    · simp only [List.lookup, hk] at h
      cases h
      simp only [List.cons.sizeOf_spec, Prod.mk.sizeOf_spec]
      omega
    · simp only [List.lookup, hk] at h
      have := ih h
      simp only [List.cons.sizeOf_spec]
      omega

/-- Embedding of `extract_from_ui` (rnbo.py lines 47-85).  The Python
for-loop over `ui_items` appends, for each item, first the item's own
descriptor(s) and then (when the item has an "items" key) the result of
the recursive call on `item["items"]`.  A non-dict item raises
(`item.get` — AttributeError), and recursing into a non-list "items"
value fails when iterated (TypeError); both are modelled as errors. -/
def extract_from_ui : List Json → Except String (List ItemInfo)
  | [] => .ok []
  | .obj fs :: rest =>
    let sub : Except String (List ItemInfo) :=
      match h : fs.lookup "items" with
      | none => .ok []
      | some (.arr children) => extract_from_ui children
      | some _ => .error "TypeError: object is not iterable"
    match sub, extract_from_ui rest with
    | .ok s, .ok t => .ok (ownInfo fs ++ s ++ t)
    | .error e, _ => .error e
    | .ok _, .error e => .error e
  | _ :: _ => .error "AttributeError: item has no attribute get"
termination_by l => sizeOf l
decreasing_by
  · have h1 : sizeOf (Json.arr children) < sizeOf fs := sizeOf_lookup_lt h
    simp only [Json.arr.sizeOf_spec, Json.obj.sizeOf_spec, List.cons.sizeOf_spec] at *
    omega
  · simp only [List.cons.sizeOf_spec]
    omega

/-- Embedding of `extract_items_info` (rnbo.py lines 46-91): if the
manifest has a "ui" key, extract from it, otherwise return the empty
list.  On a non-object manifest Python's `"ui" in json_data` is a
membership / substring test: a list lacking the string "ui" yields `[]`,
a list containing it raises on `json_data["ui"]`, and scalars raise a
TypeError on the membership test itself; we model the non-object cases
accordingly (strings are treated as erroring, the corner of a string
without "ui" as substring is not needed by any claim). -/
def extract_items_info (json_data : Json) : Except String (List ItemInfo) :=
  match json_data with
  | .obj fs =>
    match fs.lookup "ui" with
    | some (.arr ui_section) => extract_from_ui ui_section
    | some _ => .error "TypeError: object is not iterable"
    | none => .ok []
  | .arr l =>
    if l.any (fun j => match j with | .str s => s == "ui" | _ => false) then
      .error "TypeError: list indices must be integers"
    else .ok []
  | _ => .error "TypeError: argument is not iterable"

example : extract_items_info (.obj [("ui", .arr [.obj [("type", .str "button"), ("shortname", .str "gate")]])])
    = .ok [{ shortname := .str "gate", type := .str "button",
             init := .num 0, min := .num 0, max := .num 1, step := .num 1 }] := by
  simp [extract_items_info, extract_from_ui, ownInfo, isBoolKind, List.lookup]

/-!  ## The patch builder (`create_rnbo_patch`, rnbo.py lines 94-170)

The py2max object model is external to the repository; we model exactly
the parts the script uses.  A box is an id plus its content; the content
of each box created by the script is one of finitely many shapes, so we
model it as an inductive (`render` below gives the literal Max text the
script passes for it).  `add_line(src, dst, outlet=o, inlet=i)` appends
a patch line; both default to 0 when omitted.  Coordinates
(`patching_rect`) affect layout only and are not modelled. -/

/-- Contents of a Max box created by the script.  `rnbo` carries the
title from `saved_object_attributes` (the O3 optimization flag is a
constant and not modelled); `numberTilde` carries the keyword arguments
`sig`, `minimum`, `maximum` (its `mode` argument is the constant 1). -/
inductive BoxText where
  | comment (text : String)
  | ezdac
  | rnbo (title : String)
  | codebox (code : String)
  | inTilde (k : Nat)
  | outTilde (k : Nat)
  | setParam (shortname : Json)
  | toggle
  | numberTilde (sig min max : Json)
deriving Repr

/-- Python `str()` as used in the script's f-strings.  The script only
ever formats manifest "shortname" values, which are strings; the
rendering of containers is abstracted. -/
def pyStr : Json → String
  | .str s => s
  | .num q => toString q
  | .bool true => "True"
  | .bool false => "False"
  | .null => "None"
  | .arr _ => "<list repr>"
  | .obj _ => "<dict repr>"

/-- The literal text of each box as passed to py2max by the script. -/
def BoxText.render : BoxText → String
  | .comment t => t
  | .ezdac => "ezdac~"
  | .rnbo _ => "rnbo~"
  | .codebox _ => "codebox~"
  | .inTilde k => "in~ " ++ toString k
  | .outTilde k => "out~ " ++ toString k
  | .setParam s => "set " ++ pyStr s
  | .toggle => "toggle"
  | .numberTilde _ _ _ => "number~"

/-- A placed Max box: its object id (py2max assigns them sequentially
per patcher) and its content. -/
structure MaxBox where
  id : Nat
  text : BoxText
deriving Repr

/-- A patch line `add_line(src, dst, outlet, inlet)`. -/
structure Line where
  src : Nat
  dst : Nat
  outlet : Nat
  inlet : Nat
deriving Repr, DecidableEq

/-- Builder state of one patcher: the next object id and the boxes and
lines added so far, in insertion order. -/
structure PatchState where
  nextId : Nat
  boxes : List MaxBox
  lines : List Line
deriving Repr

/-- `add_textbox` / `add_codebox_tilde`: append a box with the next id. -/
def addBox (st : PatchState) (t : BoxText) : MaxBox × PatchState :=
  let b : MaxBox := ⟨st.nextId, t⟩
  (b, ⟨st.nextId + 1, st.boxes ++ [b], st.lines⟩)

/-- `add_line(src, dst, outlet, inlet)`: append a line. -/
def addLine (st : PatchState) (src dst : MaxBox) (outlet inlet : Nat) : PatchState :=
  { st with lines := st.lines ++ [⟨src.id, dst.id, outlet, inlet⟩] }

/-- One iteration of the input loop (rnbo.py lines 122-124):
`input_box = sp.add_textbox(f"in~ {i + 1}"); sp.add_line(input_box, codebox, inlet=i)`. -/
def inStep (codebox : MaxBox) (st : PatchState) (i : Nat) : PatchState :=
  let (input_box, st') := addBox st (.inTilde (i + 1))
  addLine st' input_box codebox 0 i

/-- One iteration of the output loop (rnbo.py lines 127-129):
`output_box = sp.add_textbox(f"out~ {i + 1}"); sp.add_line(codebox, output_box, outlet=i)`. -/
def outStep (codebox : MaxBox) (st : PatchState) (i : Nat) : PatchState :=
  let (output_box, st') := addBox st (.outTilde (i + 1))
  addLine st' codebox output_box i 0

/-- The display box for a descriptor (rnbo.py lines 139-165): a toggle
for button/checkbox, otherwise a number~ with the descriptor's init,
min and max. -/
def displayOf (item : ItemInfo) : BoxText :=
  if isBoolKind item.type then .toggle
  else .numberTilde item.init item.min item.max

/-- One iteration of the parameter loop (rnbo.py lines 132-167): add the
`set <shortname>` box, then the display box, then the line from the
display to the setter and the line from the setter to the codebox. -/
def paramStep (codebox : MaxBox) (st : PatchState) (item : ItemInfo) : PatchState :=
  let (param, st') := addBox st (.setParam item.shortname)
  let (value, st'') := addBox st' (displayOf item)
  let st3 := addLine st'' value param 0 0
  addLine st3 param codebox 0 0

/-- The rnbo~ subpatcher built by `create_rnbo_patch` (rnbo.py lines
114-167): codebox~ first, then the input loop, the output loop and the
parameter loop. -/
def buildSub (codebox_code : String) (items_info_list : List ItemInfo)
    (num_inputs num_outputs : Nat) : PatchState :=
  let (codebox, st1) := addBox ⟨0, [], []⟩ (.codebox codebox_code)
  let st2 := (List.range num_inputs).foldl (inStep codebox) st1
  let st3 := (List.range num_outputs).foldl (outStep codebox) st2
  items_info_list.foldl (paramStep codebox) st3

/-- The whole generated patch: the top-level patcher and the rnbo~
subpatcher.  Saving to disk is out of scope. -/
structure Patcher where
  boxes : List MaxBox
  lines : List Line
  sub : PatchState
deriving Repr

/-- Embedding of `create_rnbo_patch` (rnbo.py lines 94-170): the
top-level patcher gets the comment, the ezdac~ box and the rnbo~ box (no
top-level lines are added), and the rnbo~ subpatcher is built by
`buildSub`. -/
def create_rnbo_patch (dsp_name : String) (codebox_code : String)
    (items_info_list : List ItemInfo) (num_inputs num_outputs : Nat) : Patcher :=
  { boxes := [⟨0, .comment "Faust generated RNBO patch, Copyright (c) 2023 Grame"⟩,
              ⟨1, .ezdac⟩,
              ⟨2, .rnbo dsp_name⟩],
    lines := [],
    sub := buildSub codebox_code items_info_list num_inputs num_outputs }

/-- The count passed to Python `range()`: an integer gives its value
(negatives iterate zero times), a bool counts as 0/1 (Python bools are
ints), anything else raises a TypeError inside `create_rnbo_patch`.  In
the script this check happens when the loops run; we model it when the
count is read. -/
def asCount : Json → Except String Nat
  | .num q => if q.den = 1 then .ok q.num.toNat
              else .error "TypeError: float object cannot be interpreted as an integer"
  | .bool b => .ok (if b then 1 else 0)
  | _ => .error "TypeError: object cannot be interpreted as an integer"

/-- Embedding of `gen_faust_rnbo` after file reading (rnbo.py lines
178-186): extract the descriptor list, read "inputs"/"outputs" with
`json_data.get(key, 0)` (AttributeError on a non-dict manifest), and
build the patch. -/
def gen_faust_rnbo (dsp_name : String) (codebox_code : String) (json_data : Json) :
    Except String Patcher := do
  let items_info_list ← extract_items_info json_data
  match json_data with
  | .obj fs =>
    let num_inputs ← asCount ((fs.lookup "inputs").getD (.num 0))
    let num_outputs ← asCount ((fs.lookup "outputs").getD (.num 0))
    pure (create_rnbo_patch dsp_name codebox_code items_info_list num_inputs num_outputs)
  | _ => .error "AttributeError: object has no attribute get"

/-!  ## Closed forms for the builder loops -/

/-- The input stub boxes: ids `start, start+1, …`, labels `in~ 1 …`. -/
def inBoxes (start n : Nat) : List MaxBox :=
  (List.range n).map fun i => ⟨start + i, .inTilde (i + 1)⟩

/-- The input lines: the i-th stub into inlet i of the codebox. -/
def inLines (start cb n : Nat) : List Line :=
  (List.range n).map fun i => ⟨start + i, cb, 0, i⟩

/-- The output stub boxes: ids `start, start+1, …`, labels `out~ 1 …`. -/
def outBoxes (start n : Nat) : List MaxBox :=
  (List.range n).map fun i => ⟨start + i, .outTilde (i + 1)⟩

/-- The output lines: outlet i of the codebox into the i-th stub. -/
def outLines (start cb n : Nat) : List Line :=
  (List.range n).map fun i => ⟨cb, start + i, i, 0⟩

/-- The setter/display box pairs for the descriptor list, ids
`start, start+1, start+2, …` in insertion order. -/
def paramBoxes (start : Nat) : List ItemInfo → List MaxBox
  | [] => []
  | it :: rest =>
    ⟨start, .setParam it.shortname⟩ :: ⟨start + 1, displayOf it⟩ ::
      paramBoxes (start + 2) rest

/-- The parameter lines: display→setter and setter→codebox per item. -/
def paramLines (start cb : Nat) : List ItemInfo → List Line
  | [] => []
  | _ :: rest =>
    ⟨start + 1, start, 0, 0⟩ :: ⟨start, cb, 0, 0⟩ :: paramLines (start + 2) cb rest

theorem foldl_inStep (cb : MaxBox) :
    ∀ (n : Nat) (st : PatchState), (List.range n).foldl (inStep cb) st =
      ⟨st.nextId + n, st.boxes ++ inBoxes st.nextId n, st.lines ++ inLines st.nextId cb.id n⟩ := by
  intro n
  induction n with
  | zero => intro st; simp [inBoxes, inLines]
  | succ n ih =>
    intro st
    rw [List.range_succ, List.foldl_append, ih]
    simp only [List.foldl_cons, List.foldl_nil, inStep, addBox, addLine,
      inBoxes, inLines, List.range_succ, List.map_append, List.map_cons, List.map_nil,
      List.append_assoc, PatchState.mk.injEq]
    refine ⟨by omega, by simp, by simp⟩

theorem foldl_outStep (cb : MaxBox) :
    ∀ (n : Nat) (st : PatchState), (List.range n).foldl (outStep cb) st =
      ⟨st.nextId + n, st.boxes ++ outBoxes st.nextId n, st.lines ++ outLines st.nextId cb.id n⟩ := by
  intro n
  induction n with
  | zero => intro st; simp [outBoxes, outLines]
  | succ n ih =>
    intro st
    rw [List.range_succ, List.foldl_append, ih]
    simp only [List.foldl_cons, List.foldl_nil, outStep, addBox, addLine,
      outBoxes, outLines, List.range_succ, List.map_append, List.map_cons, List.map_nil,
      List.append_assoc, PatchState.mk.injEq]
    refine ⟨by omega, by simp, by simp⟩

theorem foldl_paramStep (cb : MaxBox) :
    ∀ (items : List ItemInfo) (st : PatchState), items.foldl (paramStep cb) st =
      ⟨st.nextId + 2 * items.length, st.boxes ++ paramBoxes st.nextId items,
       st.lines ++ paramLines st.nextId cb.id items⟩ := by
  intro items
  induction items with
  | nil => intro st; simp [paramBoxes, paramLines]
  | cons it rest ih =>
    intro st
    rw [List.foldl_cons, ih]
    simp only [paramStep, addBox, addLine, paramBoxes, paramLines, List.length_cons,
      List.append_assoc, PatchState.mk.injEq]
    refine ⟨by omega, by simp, by simp⟩

/-- Closed form of the subpatcher built by `create_rnbo_patch`. -/
theorem buildSub_eq (code : String) (items : List ItemInfo) (nin nout : Nat) :
    buildSub code items nin nout =
      ⟨1 + nin + nout + 2 * items.length,
       ⟨0, .codebox code⟩ :: (inBoxes 1 nin ++ (outBoxes (1 + nin) nout ++
         paramBoxes (1 + nin + nout) items)),
       inLines 1 0 nin ++ (outLines (1 + nin) 0 nout ++
         paramLines (1 + nin + nout) 0 items)⟩ := by
  unfold buildSub
  simp only [addBox, foldl_inStep, foldl_outStep, foldl_paramStep, List.nil_append,
    List.cons_append, List.append_assoc, PatchState.mk.injEq]

/-!  ## Box discriminators and counting lemmas -/

def BoxText.isInStub : BoxText → Bool
  | .inTilde _ => true
  | _ => false

def BoxText.isOutStub : BoxText → Bool
  | .outTilde _ => true
  | _ => false

def BoxText.isSetterBox : BoxText → Bool
  | .setParam _ => true
  | _ => false

def BoxText.isDisplayBox : BoxText → Bool
  | .toggle => true
  | .numberTilde _ _ _ => true
  | _ => false

def BoxText.isCodeboxNode : BoxText → Bool
  | .codebox _ => true
  | _ => false

def BoxText.isEzdacNode : BoxText → Bool
  | .ezdac => true
  | _ => false

def BoxText.isRnboNode : BoxText → Bool
  | .rnbo _ => true
  | _ => false

theorem mem_inBoxes {s n i : Nat} (h : i < n) :
    (⟨s + i, .inTilde (i + 1)⟩ : MaxBox) ∈ inBoxes s n := by
  simp only [inBoxes, List.mem_map, List.mem_range]
  exact ⟨i, h, rfl⟩

theorem mem_outBoxes {s n i : Nat} (h : i < n) :
    (⟨s + i, .outTilde (i + 1)⟩ : MaxBox) ∈ outBoxes s n := by
  simp only [outBoxes, List.mem_map, List.mem_range]
  exact ⟨i, h, rfl⟩

theorem mem_inLines {s cb n i : Nat} (h : i < n) :
    (⟨s + i, cb, 0, i⟩ : Line) ∈ inLines s cb n := by
  simp only [inLines, List.mem_map, List.mem_range]
  exact ⟨i, h, rfl⟩

theorem mem_outLines {s cb n i : Nat} (h : i < n) :
    (⟨cb, s + i, i, 0⟩ : Line) ∈ outLines s cb n := by
  simp only [outLines, List.mem_map, List.mem_range]
  exact ⟨i, h, rfl⟩

theorem countP_inBoxes_inStub (s n : Nat) :
    (inBoxes s n).countP (fun b => b.text.isInStub) = n := by
  have h : (inBoxes s n).countP (fun b => b.text.isInStub) = (inBoxes s n).length := by
    apply List.countP_eq_length.mpr
    intro b hb
    simp only [inBoxes, List.mem_map, List.mem_range] at hb
    obtain ⟨i, _, rfl⟩ := hb
    rfl
  rw [h]
  simp [inBoxes]

theorem countP_outBoxes_outStub (s n : Nat) :
    (outBoxes s n).countP (fun b => b.text.isOutStub) = n := by
  have h : (outBoxes s n).countP (fun b => b.text.isOutStub) = (outBoxes s n).length := by
    apply List.countP_eq_length.mpr
    intro b hb
    simp only [outBoxes, List.mem_map, List.mem_range] at hb
    obtain ⟨i, _, rfl⟩ := hb
    rfl
  rw [h]
  simp [outBoxes]

theorem countP_inBoxes_other (q : BoxText → Bool) (hq : ∀ k, q (.inTilde k) = false)
    (s n : Nat) : (inBoxes s n).countP (fun b => q b.text) = 0 := by
  apply List.countP_eq_zero.mpr
  intro b hb
  simp only [inBoxes, List.mem_map, List.mem_range] at hb
  obtain ⟨i, _, rfl⟩ := hb
  simp [hq]

theorem countP_outBoxes_other (q : BoxText → Bool) (hq : ∀ k, q (.outTilde k) = false)
    (s n : Nat) : (outBoxes s n).countP (fun b => q b.text) = 0 := by
  apply List.countP_eq_zero.mpr
  intro b hb
  simp only [outBoxes, List.mem_map, List.mem_range] at hb
  obtain ⟨i, _, rfl⟩ := hb
  simp [hq]

theorem displayOf_isDisplayBox (it : ItemInfo) : (displayOf it).isDisplayBox = true := by
  unfold displayOf
  split <;> rfl

theorem displayOf_not_other (q : BoxText → Bool) (h1 : q .toggle = false)
    (h2 : ∀ a b c, q (.numberTilde a b c) = false) (it : ItemInfo) :
    q (displayOf it) = false := by
  unfold displayOf
  split
  · exact h1
  · apply h2

theorem countP_paramBoxes_setter (s : Nat) (items : List ItemInfo) :
    (paramBoxes s items).countP (fun b => b.text.isSetterBox) = items.length := by
  induction items generalizing s with
  | nil => rfl
  | cons it rest ih =>
    have hd : (displayOf it).isSetterBox = false := by
      unfold displayOf
      split <;> rfl
    have hs : (BoxText.setParam it.shortname).isSetterBox = true := rfl
    simp only [paramBoxes, List.countP_cons, List.length_cons, ih]
    simp [hd, hs]

theorem countP_paramBoxes_display (s : Nat) (items : List ItemInfo) :
    (paramBoxes s items).countP (fun b => b.text.isDisplayBox) = items.length := by
  induction items generalizing s with
  | nil => rfl
  | cons it rest ih =>
    have hd : (displayOf it).isDisplayBox = true := displayOf_isDisplayBox it
    have hs : (BoxText.setParam it.shortname).isDisplayBox = false := rfl
    simp only [paramBoxes, List.countP_cons, List.length_cons, ih]
    simp [hd, hs]

theorem countP_paramBoxes_other (q : BoxText → Bool)
    (h1 : ∀ sn, q (.setParam sn) = false) (h2 : q .toggle = false)
    (h3 : ∀ a b c, q (.numberTilde a b c) = false) (s : Nat) (items : List ItemInfo) :
    (paramBoxes s items).countP (fun b => q b.text) = 0 := by
  induction items generalizing s with
  | nil => rfl
  | cons it rest ih =>
    simp only [paramBoxes, List.countP_cons, ih]
    simp [h1, displayOf_not_other q h2 h3]

theorem mem_paramBoxes (s : Nat) (items : List ItemInfo) (j : Nat) (hj : j < items.length) :
    (⟨s + 2 * j, .setParam (items.get ⟨j, hj⟩).shortname⟩ : MaxBox) ∈ paramBoxes s items ∧
    (⟨s + 2 * j + 1, displayOf (items.get ⟨j, hj⟩)⟩ : MaxBox) ∈ paramBoxes s items := by
  induction items generalizing s j with
  | nil => exact absurd hj (by simp)
  | cons it rest ih =>
    cases j with
    | zero => simp [paramBoxes]
    | succ j =>
      have hj' : j < rest.length := by simpa using hj
      have := ih (s + 2) j hj'
      have harith : s + 2 + 2 * j = s + 2 * (j + 1) := by omega
      rw [harith] at this
      simp only [paramBoxes, List.mem_cons]
      exact ⟨Or.inr (Or.inr this.1), Or.inr (Or.inr this.2)⟩

theorem mem_paramLines (s cb : Nat) (items : List ItemInfo) (j : Nat) (hj : j < items.length) :
    (⟨s + 2 * j + 1, s + 2 * j, 0, 0⟩ : Line) ∈ paramLines s cb items ∧
    (⟨s + 2 * j, cb, 0, 0⟩ : Line) ∈ paramLines s cb items := by
  induction items generalizing s j with
  | nil => exact absurd hj (by simp)
  | cons it rest ih =>
    cases j with
    | zero => simp [paramLines]
    | succ j =>
      have hj' : j < rest.length := by simpa using hj
      have := ih (s + 2) j hj'
      have harith : s + 2 + 2 * j = s + 2 * (j + 1) := by omega
      rw [harith] at this
      simp only [paramLines, List.mem_cons]
      exact ⟨Or.inr (Or.inr this.1), Or.inr (Or.inr this.2)⟩

theorem filter_paramBoxes_codebox (s : Nat) (items : List ItemInfo) :
    (paramBoxes s items).filter (fun b => b.text.isCodeboxNode) = [] := by
  apply List.filter_eq_nil_iff.mpr
  intro b hb
  induction items generalizing s with
  | nil => simp [paramBoxes] at hb
  | cons it rest ih =>
    simp only [paramBoxes, List.mem_cons] at hb
    rcases hb with rfl | rfl | hb
    · simp [BoxText.isCodeboxNode]
    · simp [displayOf_not_other BoxText.isCodeboxNode rfl (fun _ _ _ => rfl)]
    · exact ih (s + 2) hb

theorem filter_inBoxes_codebox (s n : Nat) :
    (inBoxes s n).filter (fun b => b.text.isCodeboxNode) = [] := by
  apply List.filter_eq_nil_iff.mpr
  intro b hb
  simp only [inBoxes, List.mem_map, List.mem_range] at hb
  obtain ⟨i, _, rfl⟩ := hb
  simp [BoxText.isCodeboxNode]

theorem filter_outBoxes_codebox (s n : Nat) :
    (outBoxes s n).filter (fun b => b.text.isCodeboxNode) = [] := by
  apply List.filter_eq_nil_iff.mpr
  intro b hb
  simp only [outBoxes, List.mem_map, List.mem_range] at hb
  obtain ⟨i, _, rfl⟩ := hb
  simp [BoxText.isCodeboxNode]

/-!  ## Claims about the patch builder -/

/-- C3: for every call to `create_rnbo_patch`, the subpatch contains
exactly `num_inputs` input stub boxes (labelled `in~ 1` … `in~ n` by
`BoxText.render`), the i-th wired into inlet i of the codebox (id 0),
and exactly `num_outputs` output stub boxes (`out~ 1` …), the i-th wired
from outlet i of the codebox. -/
theorem create_rnbo_patch_io_stubs (name code : String) (items : List ItemInfo)
    (nin nout : Nat) :
    ((create_rnbo_patch name code items nin nout).sub.boxes.countP
        (fun b => b.text.isInStub) = nin)
    ∧ ((create_rnbo_patch name code items nin nout).sub.boxes.countP
        (fun b => b.text.isOutStub) = nout)
    ∧ (∀ i, i < nin →
        (⟨1 + i, .inTilde (i + 1)⟩ : MaxBox) ∈ (create_rnbo_patch name code items nin nout).sub.boxes
        ∧ (⟨1 + i, 0, 0, i⟩ : Line) ∈ (create_rnbo_patch name code items nin nout).sub.lines)
    ∧ (∀ i, i < nout →
        (⟨1 + nin + i, .outTilde (i + 1)⟩ : MaxBox) ∈ (create_rnbo_patch name code items nin nout).sub.boxes
        ∧ (⟨0, 1 + nin + i, i, 0⟩ : Line) ∈ (create_rnbo_patch name code items nin nout).sub.lines) := by
  have hsub : (create_rnbo_patch name code items nin nout).sub =
      buildSub code items nin nout := rfl
  rw [hsub, buildSub_eq]
  refine ⟨?_, ?_, ?_, ?_⟩
  · rw [List.countP_cons, List.countP_append, List.countP_append,
      countP_inBoxes_inStub,
      countP_outBoxes_other _ (fun _ => rfl),
      countP_paramBoxes_other _ (fun _ => rfl) rfl (fun _ _ _ => rfl)]
    rfl
  · rw [List.countP_cons, List.countP_append, List.countP_append,
      countP_outBoxes_outStub,
      countP_inBoxes_other _ (fun _ => rfl),
      countP_paramBoxes_other _ (fun _ => rfl) rfl (fun _ _ _ => rfl)]
    simp [BoxText.isOutStub]
  · intro i hi
    exact ⟨List.mem_cons_of_mem _ (List.mem_append_left _ (mem_inBoxes hi)),
      List.mem_append_left _ (mem_inLines hi)⟩
  · intro i hi
    exact ⟨List.mem_cons_of_mem _
        (List.mem_append_right _ (List.mem_append_left _ (mem_outBoxes hi))),
      List.mem_append_right _ (List.mem_append_left _ (mem_outLines hi))⟩

theorem create_rnbo_patch_io_stubs_witness :
    ((0 : Nat) < 1 ∧
      (⟨1, .inTilde 1⟩ : MaxBox) ∈ (create_rnbo_patch "dsp" "code" [] 1 1).sub.boxes)
    ∧ (⟨0, 2, 0, 0⟩ : Line) ∈ (create_rnbo_patch "dsp" "code" [] 1 1).sub.lines :=
  ⟨⟨by decide, ((create_rnbo_patch_io_stubs "dsp" "code" [] 1 1).2.2.1 0 (by decide)).1⟩,
   ((create_rnbo_patch_io_stubs "dsp" "code" [] 1 1).2.2.2 0 (by decide)).2⟩

/-- C4: each control descriptor yields exactly one setter box
(`set <shortname>`) and exactly one display box (toggle for
button/checkbox, number~ with the descriptor's init/min/max otherwise),
with a line from the display to the setter and a line from the setter to
the codebox (id 0). -/
theorem create_rnbo_patch_controls (name code : String) (items : List ItemInfo)
    (nin nout : Nat) :
    ((create_rnbo_patch name code items nin nout).sub.boxes.countP
        (fun b => b.text.isSetterBox) = items.length)
    ∧ ((create_rnbo_patch name code items nin nout).sub.boxes.countP
        (fun b => b.text.isDisplayBox) = items.length)
    ∧ (∀ j (hj : j < items.length),
        (⟨1 + nin + nout + 2 * j, .setParam (items.get ⟨j, hj⟩).shortname⟩ : MaxBox)
            ∈ (create_rnbo_patch name code items nin nout).sub.boxes
        ∧ (⟨1 + nin + nout + 2 * j + 1,
             if isBoolKind (items.get ⟨j, hj⟩).type then .toggle
             else .numberTilde (items.get ⟨j, hj⟩).init (items.get ⟨j, hj⟩).min
               (items.get ⟨j, hj⟩).max⟩ : MaxBox)
            ∈ (create_rnbo_patch name code items nin nout).sub.boxes
        ∧ (⟨1 + nin + nout + 2 * j + 1, 1 + nin + nout + 2 * j, 0, 0⟩ : Line)
            ∈ (create_rnbo_patch name code items nin nout).sub.lines
        ∧ (⟨1 + nin + nout + 2 * j, 0, 0, 0⟩ : Line)
            ∈ (create_rnbo_patch name code items nin nout).sub.lines) := by
  have hsub : (create_rnbo_patch name code items nin nout).sub =
      buildSub code items nin nout := rfl
  rw [hsub, buildSub_eq]
  refine ⟨?_, ?_, ?_⟩
  · rw [List.countP_cons, List.countP_append, List.countP_append,
      countP_paramBoxes_setter,
      countP_inBoxes_other _ (fun _ => rfl),
      countP_outBoxes_other _ (fun _ => rfl)]
    simp [BoxText.isSetterBox]
  · rw [List.countP_cons, List.countP_append, List.countP_append,
      countP_paramBoxes_display,
      countP_inBoxes_other _ (fun _ => rfl),
      countP_outBoxes_other _ (fun _ => rfl)]
    simp [BoxText.isDisplayBox]
  · intro j hj
    have hb := mem_paramBoxes (1 + nin + nout) items j hj
    have hl := mem_paramLines (1 + nin + nout) 0 items j hj
    have hdisp : (⟨1 + nin + nout + 2 * j + 1,
        if isBoolKind (items.get ⟨j, hj⟩).type then .toggle
        else .numberTilde (items.get ⟨j, hj⟩).init (items.get ⟨j, hj⟩).min
          (items.get ⟨j, hj⟩).max⟩ : MaxBox)
        = ⟨1 + nin + nout + 2 * j + 1, displayOf (items.get ⟨j, hj⟩)⟩ := rfl
    rw [hdisp]
    exact ⟨List.mem_cons_of_mem _
        (List.mem_append_right _ (List.mem_append_right _ hb.1)),
      List.mem_cons_of_mem _
        (List.mem_append_right _ (List.mem_append_right _ hb.2)),
      List.mem_append_right _ (List.mem_append_right _ hl.1),
      List.mem_append_right _ (List.mem_append_right _ hl.2)⟩

theorem create_rnbo_patch_controls_witness :
    ((0 : Nat) <
        [ItemInfo.mk (.str "g") (.str "button") (.num 0) (.num 0) (.num 1) (.num 1)].length
      ∧ (⟨1, .setParam (.str "g")⟩ : MaxBox)
          ∈ (create_rnbo_patch "d" "c"
              [ItemInfo.mk (.str "g") (.str "button") (.num 0) (.num 0) (.num 1) (.num 1)]
              0 0).sub.boxes)
    ∧ (⟨1, 0, 0, 0⟩ : Line)
        ∈ (create_rnbo_patch "d" "c"
            [ItemInfo.mk (.str "g") (.str "button") (.num 0) (.num 0) (.num 1) (.num 1)]
            0 0).sub.lines :=
  ⟨⟨by decide,
    ((create_rnbo_patch_controls "d" "c"
        [ItemInfo.mk (.str "g") (.str "button") (.num 0) (.num 0) (.num 1) (.num 1)]
        0 0).2.2 0 (by decide)).1⟩,
   ((create_rnbo_patch_controls "d" "c"
        [ItemInfo.mk (.str "g") (.str "button") (.num 0) (.num 0) (.num 1) (.num 1)]
        0 0).2.2 0 (by decide)).2.2.2⟩

/-- C7: for every input, `create_rnbo_patch` builds the same fixed
top-level topology: exactly one ezdac~ box and exactly one rnbo~ wrapper
at top level, and inside the subpatcher exactly one codebox~ node
holding the supplied code text verbatim, independent of the descriptor
list and the channel counts. -/
theorem create_rnbo_patch_fixed_topology (name code : String) (items : List ItemInfo)
    (nin nout : Nat) :
    ((create_rnbo_patch name code items nin nout).boxes.countP
        (fun b => b.text.isEzdacNode) = 1)
    ∧ ((create_rnbo_patch name code items nin nout).boxes.countP
        (fun b => b.text.isRnboNode) = 1)
    ∧ ((create_rnbo_patch name code items nin nout).sub.boxes.filter
        (fun b => b.text.isCodeboxNode) = [⟨0, .codebox code⟩]) := by
  refine ⟨rfl, rfl, ?_⟩
  have hsub : (create_rnbo_patch name code items nin nout).sub =
      buildSub code items nin nout := rfl
  rw [hsub, buildSub_eq]
  rw [List.filter_cons_of_pos (by rfl), List.filter_append, List.filter_append,
    filter_inBoxes_codebox, filter_outBoxes_codebox, filter_paramBoxes_codebox]
  rfl

/-!  ## Claims about the extractor -/

theorem extract_from_ui_nil : extract_from_ui [] = .ok [] := by
  simp [extract_from_ui]

/-- Decomposition of one step of `extract_from_ui` on a successful run:
the item's own descriptors come first, then the descriptors extracted
from its "items" children (empty when there is no "items" key), then
the descriptors of the remaining siblings. -/
theorem extract_from_ui_cons_obj (fs : List (String × Json)) (rest : List Json)
    (l : List ItemInfo) (h : extract_from_ui (Json.obj fs :: rest) = .ok l) :
    ∃ sub tail, l = ownInfo fs ++ sub ++ tail ∧ extract_from_ui rest = .ok tail ∧
      ((fs.lookup "items" = none ∧ sub = [])
       ∨ (∃ c, fs.lookup "items" = some (Json.arr c) ∧ extract_from_ui c = .ok sub)) := by
  rw [extract_from_ui] at h
  split at h
  · rename_i s t heq1 heq2
    obtain rfl : ownInfo fs ++ s ++ t = l := by
      simpa using h
    refine ⟨s, t, rfl, heq2, ?_⟩
    split at heq1
    · rename_i hnone
      obtain rfl : ([] : List ItemInfo) = s := by simpa using heq1
      exact Or.inl ⟨hnone, rfl⟩
    · rename_i c hsome
      exact Or.inr ⟨c, hsome, heq1⟩
    · simp at heq1
  · simp at h
  · simp at h

/-- `extract_from_ui` on a single leaf object (no "items" key) returns
exactly that item's own descriptors. -/
theorem extract_from_ui_single (fs : List (String × Json))
    (hn : fs.lookup "items" = none) :
    extract_from_ui [Json.obj fs] = .ok (ownInfo fs) := by
  rw [extract_from_ui]
  split
  · rename_i s t heq1 heq2
    rw [extract_from_ui_nil] at heq2
    obtain rfl : ([] : List ItemInfo) = t := by simpa using heq2
    split at heq1
    · obtain rfl : ([] : List ItemInfo) = s := by simpa using heq1
      simp
    · rename_i c hc
      rw [hn] at hc
      exact Option.noConfusion hc
    · rename_i v hc
      rw [hn] at hc
      exact Option.noConfusion hc
  · rename_i e heq1
    split at heq1
    · exact Except.noConfusion heq1
    · rename_i c hc
      rw [hn] at hc
      exact Option.noConfusion hc
    · rename_i v hc
      rw [hn] at hc
      exact Option.noConfusion hc
  · rename_i s e heq1 heq2
    rw [extract_from_ui_nil] at heq2
    exact Except.noConfusion heq2

/-- C1: `extract_items_info` returns the control descriptors in
depth-first traversal order of the "ui" tree: on a manifest with a "ui"
list it runs `extract_from_ui` on it, and on each successful step the
output is the item's own descriptors, then the descriptors of its
nested "items", then those of its later siblings, in order. -/
theorem extract_items_info_dfs_order :
    (∀ fs ui, fs.lookup "ui" = some (Json.arr ui) →
      extract_items_info (Json.obj fs) = extract_from_ui ui)
    ∧ extract_from_ui [] = .ok []
    ∧ (∀ fs rest l, extract_from_ui (Json.obj fs :: rest) = .ok l →
        ∃ sub tail, l = ownInfo fs ++ sub ++ tail ∧ extract_from_ui rest = .ok tail ∧
          ((fs.lookup "items" = none ∧ sub = [])
           ∨ (∃ c, fs.lookup "items" = some (Json.arr c) ∧ extract_from_ui c = .ok sub))) := by
  refine ⟨?_, extract_from_ui_nil, extract_from_ui_cons_obj⟩
  intro fs ui hui
  simp [extract_items_info, hui]

theorem extract_items_info_dfs_order_witness :
    ∃ sub tail,
      [ItemInfo.mk (.str "gate") (.str "button") (.num 0) (.num 0) (.num 1) (.num 1),
       ItemInfo.mk (.str "mute") (.str "checkbox") (.num 0) (.num 0) (.num 1) (.num 1)]
        = ownInfo [("shortname", Json.str "gate"), ("type", Json.str "button"),
            ("items", Json.arr [Json.obj [("shortname", Json.str "mute"),
              ("type", Json.str "checkbox")]])] ++ sub ++ tail
      ∧ extract_from_ui [] = .ok tail
      ∧ (([("shortname", Json.str "gate"), ("type", Json.str "button"),
            ("items", Json.arr [Json.obj [("shortname", Json.str "mute"),
              ("type", Json.str "checkbox")]])].lookup "items" = none ∧ sub = [])
         ∨ (∃ c, [("shortname", Json.str "gate"), ("type", Json.str "button"),
              ("items", Json.arr [Json.obj [("shortname", Json.str "mute"),
                ("type", Json.str "checkbox")]])].lookup "items" = some (Json.arr c)
            ∧ extract_from_ui c = .ok sub)) :=
  extract_items_info_dfs_order.2.2
    [("shortname", Json.str "gate"), ("type", Json.str "button"),
     ("items", Json.arr [Json.obj [("shortname", Json.str "mute"),
       ("type", Json.str "checkbox")]])]
    [] _
    (by simp [extract_from_ui, ownInfo, isBoolKind, List.lookup])

/-- C10: recursion into "items" is unconditional on whether the item
itself matched as a control: whenever the item has an "items" list, a
successful run yields the item's own descriptors immediately followed
by all descendant descriptors, then the remaining siblings'. -/
theorem extract_recursion_unconditional (fs : List (String × Json)) (c rest : List Json)
    (l : List ItemInfo) (hit : fs.lookup "items" = some (Json.arr c))
    (h : extract_from_ui (Json.obj fs :: rest) = .ok l) :
    ∃ sub tail, extract_from_ui c = .ok sub ∧ extract_from_ui rest = .ok tail ∧
      l = ownInfo fs ++ sub ++ tail := by
  obtain ⟨sub, tail, hl, ht, hcase⟩ := extract_from_ui_cons_obj fs rest l h
  rcases hcase with ⟨hn, _⟩ | ⟨c', hc', hsub⟩
  · rw [hn] at hit
    exact absurd hit (by simp)
  · rw [hit] at hc'
    obtain rfl : c' = c := by simpa using hc'.symm
    exact ⟨sub, tail, hsub, ht, hl⟩

theorem extract_recursion_unconditional_witness :
    ∃ sub tail,
      extract_from_ui [Json.obj [("shortname", Json.str "lvl"), ("type", Json.str "vslider"),
        ("min", Json.num 0), ("max", Json.num 5), ("step", Json.num 1)]] = .ok sub
      ∧ extract_from_ui [] = .ok tail
      ∧ [ItemInfo.mk (.str "on") (.str "button") (.num 0) (.num 0) (.num 1) (.num 1),
         ItemInfo.mk (.str "lvl") (.str "vslider") (.num 0) (.num 0) (.num 5) (.num 1)]
          = ownInfo [("shortname", Json.str "on"), ("type", Json.str "button"),
              ("items", Json.arr [Json.obj [("shortname", Json.str "lvl"),
                ("type", Json.str "vslider"), ("min", Json.num 0), ("max", Json.num 5),
                ("step", Json.num 1)]])] ++ sub ++ tail :=
  extract_recursion_unconditional
    [("shortname", Json.str "on"), ("type", Json.str "button"),
     ("items", Json.arr [Json.obj [("shortname", Json.str "lvl"),
       ("type", Json.str "vslider"), ("min", Json.num 0), ("max", Json.num 5),
       ("step", Json.num 1)]])]
    [Json.obj [("shortname", Json.str "lvl"), ("type", Json.str "vslider"),
      ("min", Json.num 0), ("max", Json.num 5), ("step", Json.num 1)]]
    [] _
    (by simp [List.lookup])
    (by simp [extract_from_ui, ownInfo, isBoolKind, List.lookup])

/-- C2: a button/checkbox item always gets the fixed descriptor
init 0, min 0, max 1, step 1, whatever min/max/step/init fields it
carries; a range-control item (non-boolean type with "min", "max" and
"step" keys) gets its min/max/step copied unchanged; and for a leaf
item this is exactly what `extract_from_ui` emits. -/
theorem extract_control_ranges (fs : List (String × Json)) :
    (isBoolKind ((fs.lookup "type").getD (.str "")) = true →
      ownInfo fs = [⟨(fs.lookup "shortname").getD (.str ""),
        (fs.lookup "type").getD (.str ""), .num 0, .num 0, .num 1, .num 1⟩])
    ∧ (∀ mn mx st, isBoolKind ((fs.lookup "type").getD (.str "")) = false →
        fs.lookup "min" = some mn → fs.lookup "max" = some mx →
        fs.lookup "step" = some st →
        ownInfo fs = [⟨(fs.lookup "shortname").getD (.str ""),
          (fs.lookup "type").getD (.str ""),
          (fs.lookup "init").getD (.num 0), mn, mx, st⟩])
    ∧ (fs.lookup "items" = none →
        extract_from_ui [Json.obj fs] = .ok (ownInfo fs)) := by
  refine ⟨?_, ?_, extract_from_ui_single fs⟩
  · intro hb
    simp [ownInfo, hb]
  · intro mn mx st hb h1 h2 h3
    simp [ownInfo, hb, h1, h2, h3]

theorem extract_control_ranges_witness :
    ownInfo [("shortname", Json.str "b"), ("type", Json.str "button"),
      ("min", Json.num 3), ("max", Json.num 9), ("step", Json.num 2),
      ("init", Json.num 7)]
      = [⟨.str "b", .str "button", .num 0, .num 0, .num 1, .num 1⟩] :=
  (extract_control_ranges
    [("shortname", Json.str "b"), ("type", Json.str "button"),
     ("min", Json.num 3), ("max", Json.num 9), ("step", Json.num 2),
     ("init", Json.num 7)]).1 rfl

/-- C5 counterexample: a would-be range control missing its "min" key
does NOT raise a lookup failure — the `elif "min" in item and "max" in
item and "step" in item` guard simply fails and the item is skipped, so
extraction succeeds with no descriptor at all. -/
theorem extract_missing_range_key_skips :
    extract_items_info (.obj [("ui", .arr [.obj
      [("shortname", .str "level"), ("type", .str "vslider"),
       ("max", .num 10), ("step", .num 1), ("init", .num 5)]])]) = .ok []
    ∧ ∀ e, extract_items_info (.obj [("ui", .arr [.obj
        [("shortname", .str "level"), ("type", .str "vslider"),
         ("max", .num 10), ("step", .num 1), ("init", .num 5)]])]) ≠ .error e := by
  have h1 : List.lookup "items"
      [("shortname", Json.str "level"), ("type", Json.str "vslider"),
       ("max", Json.num 10), ("step", Json.num 1), ("init", Json.num 5)] = none := rfl
  have h2 := extract_from_ui_single _ h1
  have hmain : extract_items_info (.obj [("ui", .arr [.obj
      [("shortname", .str "level"), ("type", .str "vslider"),
       ("max", .num 10), ("step", .num 1), ("init", .num 5)]])]) = .ok [] := by
    show extract_from_ui [Json.obj
        [("shortname", Json.str "level"), ("type", Json.str "vslider"),
         ("max", Json.num 10), ("step", Json.num 1), ("init", Json.num 5)]] = Except.ok []
    rw [h2]
    rfl
  refine ⟨hmain, fun e he => ?_⟩
  rw [hmain] at he
  exact Except.noConfusion he

/-- C5 (amended): in `extract_items_info` a missing "shortname" defaults
to "", a missing "type" defaults to "", a missing "init" on a range
control defaults to 0; a missing "min", "max" or "step" key on a
non-boolean item makes the range-control guard fail, so the item is
skipped with no descriptor and no error. -/
theorem extract_missing_key_defaults (fs : List (String × Json)) :
    (fs.lookup "shortname" = none → ∀ d ∈ ownInfo fs, d.shortname = .str "")
    ∧ (fs.lookup "type" = none → ∀ d ∈ ownInfo fs, d.type = .str "")
    ∧ (fs.lookup "init" = none → ∀ d ∈ ownInfo fs, d.init = .num 0)
    ∧ ((fs.lookup "min" = none ∨ fs.lookup "max" = none ∨ fs.lookup "step" = none) →
        isBoolKind ((fs.lookup "type").getD (.str "")) = false →
        ownInfo fs = [] ∧ (fs.lookup "items" = none →
          extract_from_ui [Json.obj fs] = .ok [])) := by
  refine ⟨?_, ?_, ?_, ?_⟩
  · intro h d hd
    simp only [ownInfo, h, Option.getD_none] at hd
    split at hd
    · simp at hd
      subst hd
      rfl
    · split at hd
      · simp at hd
        subst hd
        rfl
      · simp at hd
  · intro h d hd
    simp only [ownInfo, h, Option.getD_none] at hd
    split at hd
    · simp at hd
      subst hd
      rfl
    · split at hd
      · simp at hd
        subst hd
        rfl
      · simp at hd
  · intro h d hd
    simp only [ownInfo, h, Option.getD_none] at hd
    split at hd
    · simp at hd
      subst hd
      rfl
    · split at hd
      · simp at hd
        subst hd
        rfl
      · simp at hd
  · intro hmiss hb
    have hown : ownInfo fs = [] := by
      simp only [ownInfo]
      rw [if_neg (by simp [hb])]
      split
      · rename_i mn mx st h1 h2 h3
        rcases hmiss with h | h | h <;> simp_all
      · rfl
    refine ⟨hown, fun hn => ?_⟩
    rw [extract_from_ui_single fs hn, hown]

theorem extract_missing_key_defaults_witness :
    ownInfo [("type", Json.str "nentry"), ("max", Json.num 4), ("step", Json.num 1)] = []
    ∧ extract_from_ui [Json.obj [("type", Json.str "nentry"), ("max", Json.num 4),
        ("step", Json.num 1)]] = .ok [] :=
  have h := (extract_missing_key_defaults
    [("type", Json.str "nentry"), ("max", Json.num 4), ("step", Json.num 1)]).2.2.2
    (Or.inl rfl) rfl
  ⟨h.1, h.2 rfl⟩

/-- Modelled from the spec: the spec's control-descriptor kind set
{button, checkbox, slider, numeric-entry}, listed with the concrete
manifest spellings of the slider and numeric-entry kinds. -/
def specDescriptorKinds : Json → Bool
  | .str s => ["button", "checkbox", "slider", "numeric-entry",
               "hslider", "vslider", "nentry"].contains s
  | _ => false

/-- C6 counterexample: a manifest item with an arbitrary "type" and
min/max/step keys yields a descriptor whose type is copied verbatim —
here "weird", which lies outside the spec's kind set. -/
theorem extract_type_outside_kinds :
    extract_items_info (.obj [("ui", .arr [.obj
      [("shortname", .str "q"), ("type", .str "weird"),
       ("min", .num 0), ("max", .num 10), ("step", .num 1)]])])
      = .ok [⟨.str "q", .str "weird", .num 0, .num 0, .num 10, .num 1⟩]
    ∧ specDescriptorKinds (.str "weird") = false := by
  constructor
  · have h1 : List.lookup "items"
        [("shortname", Json.str "q"), ("type", Json.str "weird"),
         ("min", Json.num 0), ("max", Json.num 10), ("step", Json.num 1)] = none := rfl
    have h2 := extract_from_ui_single _ h1
    show extract_from_ui [Json.obj
        [("shortname", Json.str "q"), ("type", Json.str "weird"),
         ("min", Json.num 0), ("max", Json.num 10), ("step", Json.num 1)]]
      = Except.ok [ItemInfo.mk (Json.str "q") (Json.str "weird") (Json.num 0)
          (Json.num 0) (Json.num 10) (Json.num 1)]
    rw [h2]
    rfl
  · rfl

theorem extract_descriptor_origin_aux :
    ∀ (n : Nat) (l : List Json), sizeOf l ≤ n →
      ∀ ds, extract_from_ui l = .ok ds → ∀ d ∈ ds, ∃ fs, d ∈ ownInfo fs := by
  intro n
  induction n with
  | zero =>
    intro l hl
    exfalso
    cases l <;> simp_all
  | succ n ih =>
    intro l hl ds h d hd
    cases l with
    | nil =>
      rw [extract_from_ui_nil] at h
      obtain rfl : ([] : List ItemInfo) = ds := by simpa using h
      simp at hd
    | cons item rest =>
      cases item with
      | obj fs =>
        obtain ⟨sub, tail, hds, ht, hcase⟩ := extract_from_ui_cons_obj fs rest ds h
        subst hds
        rcases List.mem_append.mp hd with hd1 | hd3
        · rcases List.mem_append.mp hd1 with hd0 | hd2
          · exact ⟨fs, hd0⟩
          · rcases hcase with ⟨_, hsubnil⟩ | ⟨c, hc, hsub⟩
            · subst hsubnil
              simp at hd2
            · have hsz : sizeOf c ≤ n := by
                have h1 := sizeOf_lookup_lt hc
                simp only [Json.arr.sizeOf_spec, Json.obj.sizeOf_spec,
                  List.cons.sizeOf_spec] at h1 hl
                omega
              exact ih c hsz sub hsub d hd2
        · have hsz : sizeOf rest ≤ n := by
            simp only [Json.obj.sizeOf_spec, List.cons.sizeOf_spec] at hl
            omega
          exact ih rest hsz tail ht d hd3
      | null => simp [extract_from_ui] at h
      | bool b => simp [extract_from_ui] at h
      | num q => simp [extract_from_ui] at h
      | str s => simp [extract_from_ui] at h
      | arr a => simp [extract_from_ui] at h

/-- C6 (amended): a descriptor's type is either a boolean kind
("button"/"checkbox") or is copied verbatim from the item's "type"
value (defaulting to "") — the extractor never restricts it to the
spec's kind set; and every descriptor a successful extraction returns
originates from some item's own-descriptor step. -/
theorem extract_type_copied_verbatim :
    (∀ fs, ∀ d ∈ ownInfo fs,
      isBoolKind d.type = true ∨ d.type = (fs.lookup "type").getD (.str ""))
    ∧ (∀ l ds, extract_from_ui l = .ok ds → ∀ d ∈ ds, ∃ fs, d ∈ ownInfo fs) := by
  constructor
  · intro fs d hd
    simp only [ownInfo] at hd
    split at hd
    · rename_i hb
      simp at hd
      subst hd
      exact Or.inl hb
    · split at hd
      · simp at hd
        subst hd
        exact Or.inr rfl
      · simp at hd
  · intro l ds h d hd
    exact extract_descriptor_origin_aux (sizeOf l) l (le_refl _) ds h d hd

theorem extract_type_copied_verbatim_witness :
    isBoolKind (Json.str "weird") = true
    ∨ (Json.str "weird") = (([("type", Json.str "weird"), ("min", Json.num 0),
        ("max", Json.num 1), ("step", Json.num 1)].lookup "type").getD (.str "")) :=
  extract_type_copied_verbatim.1
    [("type", Json.str "weird"), ("min", Json.num 0),
     ("max", Json.num 1), ("step", Json.num 1)]
    ⟨.str "", .str "weird", .num 0, .num 0, .num 1, .num 1⟩
    (by simp [ownInfo, List.lookup, isBoolKind])

/-- C9: absent top-level manifest keys fall back to defaults: without a
"ui" key extraction returns the empty descriptor list, and without
"inputs"/"outputs" keys `gen_faust_rnbo` builds the patch with channel
counts 0. -/
theorem manifest_defaults (fs : List (String × Json)) :
    (fs.lookup "ui" = none → extract_items_info (Json.obj fs) = .ok [])
    ∧ (∀ name code items, fs.lookup "inputs" = none → fs.lookup "outputs" = none →
        extract_items_info (Json.obj fs) = .ok items →
        gen_faust_rnbo name code (Json.obj fs)
          = .ok (create_rnbo_patch name code items 0 0)) := by
  constructor
  · intro h
    simp [extract_items_info, h]
  · intro name code items h1 h2 hx
    have ha : asCount (Json.num 0) = .ok 0 := rfl
    simp [gen_faust_rnbo, hx, h1, h2, ha]
    rfl

theorem manifest_defaults_witness :
    gen_faust_rnbo "osc" "code" (Json.obj [])
      = .ok (create_rnbo_patch "osc" "code" [] 0 0) :=
  (manifest_defaults []).2 "osc" "code" [] rfl rfl rfl

/-!  ## C8: the extractor only reads the manifest

Every operation `extract_items_info` performs on the manifest is a dict
read (`item.get(k, d)`, `k in item`, `item[k]`) or a list iteration;
none of them writes.  To state the frame property we reassemble the
manifest along the extractor's traversal: wherever the recursion
descends into a key's value, `rebuild` re-inserts (with `setFirst`, the
association-list update at the first binding of a key — Python dict
assignment) the traversal's reconstruction of that value.  The claim is
that this reassembly is the unchanged manifest. -/

/-- Update the first binding of `key` (Python `d[key] = v` on a dict
whose keys are unique). -/
def setFirst : List (String × Json) → String → Json → List (String × Json)
  | [], _, _ => []
  | (k, v) :: rest, key, nv =>
    if key == k then (k, nv) :: rest else (k, v) :: setFirst rest key nv

theorem setFirst_eq_of_lookup {fs : List (String × Json)} {k : String} {v : Json}
    (h : fs.lookup k = some v) : setFirst fs k v = fs := by
  induction fs with
  | nil => rfl
  | cons p rest ih =>
    obtain ⟨a, b⟩ := p
    by_cases hk : k == a
    · simp only [List.lookup, hk] at h
      obtain rfl : b = v := by simpa using h
      simp [setFirst, hk]
    · simp only [List.lookup, hk] at h
      simp [setFirst, hk, ih h]

/-- The "ui" forest as reassembled along the extractor's traversal:
each visited object has its "items" binding replaced by the
reconstruction of the children the recursion visited. -/
def rebuildUi : List Json → List Json
  | [] => []
  | .obj fs :: rest =>
    (match h : fs.lookup "items" with
     | some (.arr children) => Json.obj (setFirst fs "items" (.arr (rebuildUi children)))
     | _ => Json.obj fs) :: rebuildUi rest
  | item :: rest => item :: rebuildUi rest
termination_by l => sizeOf l
decreasing_by
  · have h1 : sizeOf (Json.arr children) < sizeOf fs := sizeOf_lookup_lt h
    simp only [Json.arr.sizeOf_spec, Json.obj.sizeOf_spec, List.cons.sizeOf_spec] at *
    omega
  · simp only [List.cons.sizeOf_spec]
    omega
  · simp only [List.cons.sizeOf_spec]
    omega

/-- The manifest as reassembled along `extract_items_info`'s traversal. -/
def rebuildManifest (json_data : Json) : Json :=
  match json_data with
  | .obj fs =>
    match fs.lookup "ui" with
    | some (.arr ui_section) => .obj (setFirst fs "ui" (.arr (rebuildUi ui_section)))
    | _ => .obj fs
  | j => j

theorem rebuildUi_eq_self : ∀ (n : Nat) (l : List Json), sizeOf l ≤ n →
    rebuildUi l = l := by
  intro n
  induction n with
  | zero =>
    intro l hl
    exfalso
    cases l <;> simp_all
  | succ n ih =>
    intro l hl
    cases l with
    | nil => rw [rebuildUi]
    | cons item rest =>
      have hrest : rebuildUi rest = rest := by
        apply ih
        simp only [List.cons.sizeOf_spec] at hl
        have : 1 ≤ sizeOf item := by cases item <;> simp +arith
        omega
      cases item with
      | obj fs =>
        rw [rebuildUi, hrest]
        congr 1
        split
        · rename_i children heq
          have hc : rebuildUi children = children := by
            apply ih
            have h1 := sizeOf_lookup_lt heq
            simp only [Json.arr.sizeOf_spec, Json.obj.sizeOf_spec,
              List.cons.sizeOf_spec] at h1 hl
            omega
          rw [hc]
          rw [setFirst_eq_of_lookup heq]
        · rfl
      | null =>
        rw [rebuildUi, hrest]
        simp
      | bool b =>
        rw [rebuildUi, hrest]
        simp
      | num q =>
        rw [rebuildUi, hrest]
        simp
      | str s =>
        rw [rebuildUi, hrest]
        simp
      | arr a =>
        rw [rebuildUi, hrest]
        simp

/-- C8: the extractor leaves the manifest unchanged — reassembling the
manifest along `extract_items_info`'s traversal, with every dict the
recursion visited re-inserted at its key, gives back the manifest. -/
theorem extract_items_info_reads_only (json_data : Json) :
    rebuildManifest json_data = json_data := by
  cases json_data with
  | obj fs =>
    simp only [rebuildManifest]
    split
    · rename_i ui heq
      rw [rebuildUi_eq_self (sizeOf ui) ui (le_refl _), setFirst_eq_of_lookup heq]
    · rfl
  | null => rfl
  | bool b => rfl
  | num q => rfl
  | str s => rfl
  | arr a => rfl
